import Mathlib

/-!
Verification development for the `ftdump` command-line utility
(`src/tools/freetype/ftdump.c`): a thin driver over the FreeType
rasterization engine that parses a glyph-ID list, renders each glyph,
and emits one JSON object per glyph.

The C program is shallowly embedded:
* pure helper functions (`parse_glyph_list`, `flag_includes`,
  `parse_csv_doubles`) become Lean functions over `String`;
* the FreeType engine is opaque: it is modelled as an `Engine` record of
  functions describing the outcome of each engine call;
* the JSON emission is modelled structurally: the program's standard
  output is a list of `GlyphJSON` records (one per emitted object), in
  emission order, rather than a character string;
* C `double` values are modelled as `ℚ` and casts to integer types as
  truncation toward zero, matching C's conversion rules;
* the C `(int)`/`(FT_UInt)` casts are modelled as wrapping into
  `[-2^31, 2^31)` and `[0, 2^32)` respectively.
-/

/-- Truncation of a rational toward zero, the C semantics of casting a
`double` to an integer type (`(FT_Fixed)`, `(FT_Pos)`). -/
def truncQ (q : ℚ) : Int := Int.tdiv q.num (q.den : Int)

/-- Wrap an unbounded integer into signed 32-bit range, the effect of the
C cast `(int)` applied to a `long` value. -/
def wrap32 (n : Int) : Int := ((n + 2 ^ 31) % 2 ^ 32) - 2 ^ 31

/-- Reinterpret an integer as unsigned 32-bit, the effect of the C cast
`(FT_UInt)` applied to an `int` value. -/
def toUInt32Nat (n : Int) : Nat := (n % 2 ^ 32).toNat

/-- Split a character list at every `','`, keeping empty fields, so that
the number of fields is always the number of commas plus one. This is
the decomposition of the argument string that the `strtok_r` loops in
ftdump.c walk over. -/
def splitFields : List Char → List (List Char)
  | [] => [[]]
  | c :: rest =>
      if c = ',' then [] :: splitFields rest
      else
        match splitFields rest with
        | [] => [[c]]
        | f :: fs => (c :: f) :: fs

/-- Does `hay` start with `needle`? (helper for the `strstr` model). -/
def startsWithL : List Char → List Char → Bool
  | _, [] => true
  | [], _ :: _ => false
  | h :: hs, n :: ns => (h = n : Bool) && startsWithL hs ns

/-- Model of C `strstr(hay, needle) != NULL`: some suffix of `hay`
starts with `needle`. -/
def hasSub : List Char → List Char → Bool
  | hay, needle =>
      startsWithL hay needle ||
      (match hay with
       | [] => false
       | _ :: t => hasSub t needle)

/-- Model of C `strtol(tok, NULL, 10)`: skip leading whitespace, consume an
optional sign, then consume decimal digits greedily; a token with no
digits yields 0 (permissive parsing, no error reporting). -/
def strtolInt (cs0 : List Char) : Int :=
  let cs := cs0.dropWhile (fun c => c = ' ' ∨ c = '\t' ∨ c = '\n' ∨ c = '\r')
  let decVal : List Char → Int := fun l =>
    (l.takeWhile Char.isDigit).foldl (fun a c => a * 10 + ((c.toNat : Int) - 48)) 0
  match cs with
  | '-' :: rest => - decVal rest
  | '+' :: rest => decVal rest
  | rest => decVal rest

/-- Model of C `strtod(tok, NULL)` on plain decimal literals: optional
sign, integer digits, optional fraction after `.`. A token with no
digits yields 0. (The exponent form and the binary rounding of `double`
are not modelled; the transform claims are stated over the parsed
values.) -/
def strtodQ (cs0 : List Char) : ℚ :=
  let cs := cs0.dropWhile (fun c => c = ' ' ∨ c = '\t' ∨ c = '\n' ∨ c = '\r')
  let decVal : List Char → ℚ := fun l =>
    let ds := l.takeWhile Char.isDigit
    let ip : ℚ := (ds.foldl (fun a c => a * 10 + ((c.toNat : Int) - 48)) (0 : Int) : Int)
    let rest := l.drop ds.length
    match rest with
    | '.' :: fs =>
        let fds := fs.takeWhile Char.isDigit
        ip + ((fds.foldl (fun a c => a * 10 + ((c.toNat : Int) - 48)) (0 : Int) : Int) : ℚ)
             / ((10 : ℚ) ^ fds.length)
    | _ => ip
  match cs with
  | '-' :: rest => - decVal rest
  | '+' :: rest => decVal rest
  | rest => decVal rest

/-- The comma-separated fields of a string that `strtok_r(buf, ",", ...)`
actually yields: all fields, with empty fields dropped (`strtok_r`
treats consecutive separators as one and skips leading and trailing
separators). -/
def gidFields (s : String) : List (List Char) :=
  (splitFields s.toList).filter (fun t => t ≠ [])

/-- Embedding of `parse_glyph_list` (ftdump.c lines 12-43).
Returns `none` for the empty string (the C function returns `NULL` with
`*out_count = 0`); otherwise tokenizes with `strtok_r` on `","` (empty
fields skipped), converts each token with `(int)strtol(tok, NULL, 10)`,
and stops after at most `count` tokens where `count` is the number of
commas plus one, i.e. `(splitFields list.toList).length`. Allocation
failure is not modelled. -/
def parse_glyph_list (list : String) : Option (List Int) :=
  if list = "" then none
  else
    let count := (splitFields list.toList).length
    some (((gidFields list).map (fun t => wrap32 (strtolInt t))).take count)

/-- Embedding of `flag_includes` (ftdump.c lines 45-48): NULL or empty
flag string or empty needle gives false; otherwise `strstr` substring
containment. -/
def flag_includes (flags : Option String) (needle : String) : Bool :=
  match flags with
  | none => false
  | some f =>
      if f = "" then false
      else if needle = "" then false
      else hasSub f.toList needle.toList

/-- Embedding of `parse_csv_doubles` (ftdump.c lines 50-63): tokenize on
`","` with `strtok_r` (empty fields skipped), convert each token with
`strtod`, keep at most `max` values; the empty string yields no values. -/
def parse_csv_doubles (arg : String) (max : Nat) : List ℚ :=
  if arg = "" then []
  else (((splitFields arg.toList).filter (fun t => t ≠ [])).map strtodQ).take max

/-- FreeType's `FT_Matrix`: a 2x2 linear transform in 16.16 fixed point.
Field order follows the assignments in ftdump.c lines 137-140
(`xx`, `yx`, `xy`, `yy`). -/
structure FTMatrix where
  xx : Int
  yx : Int
  xy : Int
  yy : Int
deriving DecidableEq, Repr

/-- FreeType's `FT_Vector`: a translation in 1/64-pixel units. -/
structure FTVector where
  x : Int
  y : Int
deriving DecidableEq, Repr

/-- The transform computed per glyph from the matrix and delta value
lists (ftdump.c lines 129-165), stated over the lists that
`parse_csv_doubles` produced. `none` means `apply_transform` stayed 0
and `FT_Set_Transform(face, NULL, NULL)` is used instead.
* a matrix list of at least 4 values installs the 2x2 linear part in
  16.16 fixed point; its translation is seeded from values 5 and 6 only
  when the list has at least 6 values (`count >= 6`), else (0, 0);
* a delta list of at least 2 values first installs an identity linear
  part and zero translation if no matrix was usable, then adds the raw
  truncated delta values to the translation (`delta.x += (FT_Pos)dvals[0]`). -/
def applyTransformArgs (mvals dvals : List ℚ) : Option (FTMatrix × FTVector) :=
  let fromMatrix : Option (FTMatrix × FTVector) :=
    if 4 ≤ mvals.length then
      let tx : ℚ := if 6 ≤ mvals.length then mvals.getD 4 0 else 0
      let ty : ℚ := if 6 ≤ mvals.length then mvals.getD 5 0 else 0
      some (⟨truncQ (mvals.getD 0 0 * 65536), truncQ (mvals.getD 1 0 * 65536),
             truncQ (mvals.getD 2 0 * 65536), truncQ (mvals.getD 3 0 * 65536)⟩,
            ⟨truncQ (tx * 64), truncQ (ty * 64)⟩)
    else none
  if 2 ≤ dvals.length then
    let base := fromMatrix.getD (⟨65536, 0, 0, 65536⟩, ⟨0, 0⟩)
    some (base.1, ⟨base.2.x + truncQ (dvals.getD 0 0), base.2.y + truncQ (dvals.getD 1 0)⟩)
  else fromMatrix

/-- The per-glyph transform computed from the raw optional CLI arguments
(ftdump.c lines 133-165): a NULL or empty matrix argument contributes no
values (`count` stays below 4), likewise for the delta argument. -/
def computeTransform (matrixArg deltaArg : Option String) : Option (FTMatrix × FTVector) :=
  let mvals := match matrixArg with
    | none => []
    | some m => if m = "" then [] else parse_csv_doubles m 6
  let dvals := match deltaArg with
    | none => []
    | some d => if d = "" then [] else parse_csv_doubles d 2
  applyTransformArgs mvals dvals

/-- FreeType load-flag bits, from the public FreeType header included by
ftdump.c: `FT_LOAD_DEFAULT = 0`, `FT_LOAD_NO_HINTING = 2`,
`FT_LOAD_NO_BITMAP = 8`, `FT_LOAD_NO_AUTOHINT = 0x8000`,
`FT_LOAD_TARGET_(x) = x << 16`, `FT_LOAD_TARGET_MASK = 0xF << 16`. -/
def FT_LOAD_TARGET_MASK : Nat := 15 * 65536

/-- Render mode passed to `FT_Render_Glyph`: normal anti-aliased
grayscale, or 1-bit monochrome. -/
inductive FTRenderMode where
  | normal
  | mono
deriving DecidableEq, Repr

/-- Load-flag derivation (ftdump.c lines 78-92): base flags disable
autohint and bitmap strikes; `nohint` adds `FT_LOAD_NO_HINTING`;
`light` and `mono` clear the 32-bit target field and select the light
or mono hinting target. -/
def load_flags_of (flags : Option String) : Nat :=
  let f0 : Nat := 0 ||| 32768 ||| 8
  let f1 : Nat := if flag_includes flags "nohint" then f0 ||| 2 else f0
  let f2 : Nat :=
    if flag_includes flags "light" then
      (f1 &&& (4294967295 - FT_LOAD_TARGET_MASK)) ||| (1 * 65536)
    else f1
  if flag_includes flags "mono" then
    (f2 &&& (4294967295 - FT_LOAD_TARGET_MASK)) ||| (2 * 65536)
  else f2

/-- Render-mode derivation (ftdump.c lines 78, 88-92): `mono` in the
flag string switches `FT_Render_Glyph` to monochrome. -/
def render_mode_of (flags : Option String) : FTRenderMode :=
  if flag_includes flags "mono" then FTRenderMode.mono else FTRenderMode.normal

/-- The glyph-slot data the driver reads back after a successful
`FT_Load_Glyph` + `FT_Render_Glyph` (ftdump.c lines 186-198): bitmap
width, rows, pitch (signed; its sign encodes storage direction), the
bitmap buffer (`none` models a NULL buffer pointer), bearings, and the
raw 26.6 horizontal advance. Buffer bytes are `unsigned char` values. -/
structure GlyphSlot where
  width : Nat
  rows : Nat
  pitch : Int
  buffer : Option (List Nat)
  bitmap_left : Int
  bitmap_top : Int
  advanceX : Int

/-- Opaque model of the FreeType engine: outcomes of `FT_Init_FreeType`,
`FT_New_Face`, `FT_Set_Pixel_Sizes` (as a function of the `FT_UInt`
pixel size it receives), and of the combined
`FT_Load_Glyph`/`FT_Render_Glyph` pair as a function of the load flags,
render mode, installed transform (`none` = transform cleared to
identity) and glyph index; `none` models a nonzero `FT_Error` from
either load or render. -/
structure Engine where
  initOk : Bool
  faceOk : Bool
  setPixelSizeOk : Nat → Bool
  render : Nat → FTRenderMode → Option (FTMatrix × FTVector) → Nat → Option GlyphSlot

/-- One emitted JSON object, modelled structurally (field order in the
emitted text is fixed: gid, width, rows, left, top, advanceX, then
optionally pixels). `pixels = none` means the `"pixels"` key is absent. -/
structure GlyphJSON where
  gid : Nat
  width : Nat
  rows : Nat
  left : Int
  top : Int
  advanceX : Int
  pixels : Option (List Nat)
deriving DecidableEq, Repr

/-- Fetch `buffer[i]` from the modelled bitmap buffer. C performs no
bounds check here; out-of-range accesses (undefined behavior in C) are
modelled as the value 0. -/
def byteAt (buf : List Nat) (i : Int) : Nat := buf.getD i.toNat 0

/-- Embedding of the pixel-emission loop (ftdump.c lines 200-217): for
each logical row `y` from 0, the row's byte offset is
`origin + y * pitch` where `origin` is `(rows - 1) * |pitch|` for a
negative pitch and 0 otherwise, and `width` bytes are emitted per row. -/
def emitPixels (width rows : Nat) (pitch : Int) (buf : List Nat) : List Nat :=
  let origin : Int := if pitch < 0 then ((rows : Int) - 1) * (pitch.natAbs : Int) else 0
  ((List.range rows).map (fun (y : Nat) =>
    (List.range width).map (fun (x : Nat) =>
      byteAt buf (origin + (y : Int) * pitch + (x : Int))))).flatten

/-- The all-zero object emitted when load or render fails for a glyph
(ftdump.c lines 179-184); it never carries a `pixels` key. -/
def zeroGlyphJSON (gid : Nat) : GlyphJSON :=
  ⟨gid, 0, 0, 0, 0, 0, none⟩

/-- One iteration of the glyph loop (ftdump.c lines 126-221) for glyph
index `gid`: render through the engine with the derived flags and the
per-run transform; on failure emit the zero object; on success emit the
metrics (advance arithmetically shifted right by 6, i.e. floor-divided
by 64) and, when the `pixels` flag is set and the buffer is non-NULL,
the flattened pixel array. -/
def renderGlyph (eng : Engine) (flags : Option String)
    (tf : Option (FTMatrix × FTVector)) (gid : Nat) : GlyphJSON :=
  match eng.render (load_flags_of flags) (render_mode_of flags) tf gid with
  | none => zeroGlyphJSON gid
  | some slot =>
      { gid := gid
        width := slot.width
        rows := slot.rows
        left := slot.bitmap_left
        top := slot.bitmap_top
        advanceX := Int.ediv slot.advanceX 64
        pixels :=
          if flag_includes flags "pixels" then
            match slot.buffer with
            | some buf => some (emitPixels slot.width slot.rows slot.pitch buf)
            | none => none
          else none }

/-- Result of one program invocation: the process exit code, the emitted
JSON array (`none` = no JSON array was printed, errors go to standard
error only), and the `FT_UInt` value passed to `FT_Set_Pixel_Sizes`
(`none` = the call was never reached). -/
structure RunResult where
  exitCode : Nat
  json : Option (List GlyphJSON)
  sizeReceived : Option Nat
deriving DecidableEq, Repr

/-- Embedding of `main` (ftdump.c lines 65-228) past the `argc < 4`
check, with the three mandatory arguments present and the optional ones
as `Option String` (absent = NULL): parse the pixel size with `atoi`,
initialize the engine, load the face, set the pixel size (the engine
receives `(FT_UInt)pixel_size`), parse the glyph list (NULL result or
zero count is a fatal error, exit 1), then emit one object per parsed
glyph ID in order and exit 0. The per-glyph transform is recomputed
identically for every glyph, so it is computed once here. -/
def ftdumpMain (eng : Engine) (pixelSizeArg gidListArg : String)
    (flags matrixArg deltaArg : Option String) : RunResult :=
  let pixel_size : Int := strtolInt pixelSizeArg.toList
  if !eng.initOk then ⟨1, none, none⟩
  else if !eng.faceOk then ⟨1, none, none⟩
  else
    let sz := toUInt32Nat pixel_size
    if !eng.setPixelSizeOk sz then ⟨1, none, some sz⟩
    else
      match parse_glyph_list gidListArg with
      | none => ⟨1, none, some sz⟩
      | some gids =>
          if gids.length = 0 then ⟨1, none, some sz⟩
          else
            let tf := computeTransform matrixArg deltaArg
            ⟨0, some (gids.map (fun g => renderGlyph eng flags tf (toUInt32Nat g))), some sz⟩

/-! ### Helper lemmas about the embedded definitions -/

/-- The glyph ID actually requested from the engine for a token: the
token through `(int)strtol`, then through the `(FT_UInt)` cast. -/
def gidOfTok (t : List Char) : Nat := toUInt32Nat (wrap32 (strtolInt t))

theorem gidFields_length_le (s : String) :
    (gidFields s).length ≤ (splitFields s.toList).length :=
  List.length_filter_le _ _

/-- For a nonempty argument, `parse_glyph_list` succeeds and the
`idx < count` cap never truncates (at most one token per field). -/
theorem parse_glyph_list_of_ne (s : String) (h : s ≠ "") :
    parse_glyph_list s = some ((gidFields s).map (fun t => wrap32 (strtolInt t))) := by
  rw [parse_glyph_list, if_neg h]
  exact congrArg some
    (List.take_of_length_le (by rw [List.length_map]; exact gidFields_length_le s))

theorem byteAt_lt_256 (buf : List Nat) (i : Int) (hb : ∀ b ∈ buf, b < 256) :
    byteAt buf i < 256 := by
  unfold byteAt
  rw [List.getD_eq_getElem?_getD]
  rcases h : buf[i.toNat]? with _ | b
  · norm_num
  · exact hb b (List.getElem?_mem h)

/-- The flattening of uniform-length lists has the product length. -/
theorem length_flatten_uniform {α : Type} (w : Nat) (l : List (List α))
    (hw : ∀ a ∈ l, a.length = w) : l.flatten.length = l.length * w := by
  induction l with
  | nil => simp
  | cons a tl ih =>
      have ha : a.length = w := hw a (by simp)
      have htl := ih (fun b hb => hw b (by simp [hb]))
      simp [List.flatten_cons, ha, htl, Nat.succ_mul, Nat.add_comm]

theorem emitPixels_length (w rows : Nat) (p : Int) (buf : List Nat) :
    (emitPixels w rows p buf).length = rows * w := by
  simp only [emitPixels]
  rw [length_flatten_uniform w]
  · simp
  · intro a ha
    simp only [List.mem_map] at ha
    obtain ⟨y, _, rfl⟩ := ha
    simp

theorem emitPixels_mem_lt_256 (w rows : Nat) (p : Int) (buf : List Nat)
    (hb : ∀ b ∈ buf, b < 256) : ∀ v ∈ emitPixels w rows p buf, v < 256 := by
  intro v hv
  simp only [emitPixels, List.mem_flatten, List.mem_map, List.mem_range] at hv
  obtain ⟨row, ⟨y, hy, hrow⟩, hvrow⟩ := hv
  subst hrow
  simp only [List.mem_map, List.mem_range] at hvrow
  obtain ⟨x, hx, hvx⟩ := hvrow
  subst hvx
  exact byteAt_lt_256 _ _ hb

/-- Indexing a flattening of uniform-length lists. -/
theorem flatten_getElem_uniform {α : Type} (w x : Nat) (hx : x < w)
    (l : List (List α)) (hw : ∀ a ∈ l, a.length = w) (i : Nat) :
    l.flatten[i * w + x]? = (l[i]?).bind (fun a => a[x]?) := by
  induction l generalizing i with
  | nil => simp
  | cons a tl ih =>
      have ha : a.length = w := hw a (by simp)
      cases i with
      | zero =>
          simp only [Nat.zero_mul, Nat.zero_add, List.flatten_cons]
          rw [List.getElem?_append_left (by omega)]
          simp
      | succ i =>
          simp only [List.flatten_cons]
          have hw' : w ≤ (i + 1) * w := Nat.le_mul_of_pos_left w (Nat.succ_pos i)
          rw [List.getElem?_append_right (by omega)]
          have harith : (i + 1) * w + x - a.length = i * w + x := by
            rw [ha, Nat.succ_mul]; omega
          rw [harith, ih (fun b hb => hw b (by simp [hb]))]
          simp

/-- `gidFields` of the empty string is empty. -/
theorem gidFields_empty : gidFields "" = [] := by decide

/-- Full characterization of a successful run: engine initialization,
face load and pixel-size set succeed and the glyph list has at least one
non-empty field. -/
theorem ftdumpMain_success (eng : Engine) (szArg gl : String) (flags m d : Option String)
    (h1 : eng.initOk = true) (h2 : eng.faceOk = true)
    (h3 : eng.setPixelSizeOk (toUInt32Nat (strtolInt szArg.toList)) = true)
    (hne : gidFields gl ≠ []) :
    ftdumpMain eng szArg gl flags m d =
      ⟨0,
       some ((gidFields gl).map (fun t =>
         renderGlyph eng flags (computeTransform m d) (gidOfTok t))),
       some (toUInt32Nat (strtolInt szArg.toList))⟩ := by
  have hgl : gl ≠ "" := by
    intro hg
    rw [hg, gidFields_empty] at hne
    exact hne rfl
  rw [ftdumpMain]
  simp only [h1, h2, h3, Bool.not_true, Bool.false_eq_true, if_false,
    parse_glyph_list_of_ne gl hgl]
  rw [if_neg (by simp [hne])]
  rw [List.map_map]
  rfl

/-- Runs that fail before the glyph loop: an empty glyph list (no
non-empty comma-separated field, which includes the empty string) is a
fatal error: exit code 1 and no JSON on standard output. -/
theorem ftdumpMain_empty_list (eng : Engine) (szArg gl : String) (flags m d : Option String)
    (hne : gidFields gl = []) :
    (ftdumpMain eng szArg gl flags m d).exitCode = 1 ∧
    (ftdumpMain eng szArg gl flags m d).json = none := by
  rw [ftdumpMain]
  cases h1 : eng.initOk with
  | false => simp [h1]
  | true =>
  cases h2 : eng.faceOk with
  | false => simp [h1, h2]
  | true =>
  cases h3 : eng.setPixelSizeOk (toUInt32Nat (strtolInt szArg.toList)) with
  | false => simp only [String.toList] at h3; simp [h1, h2, h3]
  | true =>
  simp only [h1, h2, h3, Bool.not_true, Bool.false_eq_true, if_false]
  by_cases hgl : gl = ""
  · subst hgl
    simp [parse_glyph_list]
  · rw [parse_glyph_list_of_ne gl hgl]
    simp [hne]

/-- Whenever a run prints a JSON array at all, it is the per-field map
of the glyph loop. -/
theorem ftdumpMain_json_some (eng : Engine) (szArg gl : String) (flags m d : Option String)
    (out : List GlyphJSON)
    (h : (ftdumpMain eng szArg gl flags m d).json = some out) :
    out = (gidFields gl).map (fun t =>
      renderGlyph eng flags (computeTransform m d) (gidOfTok t)) := by
  by_cases hne : gidFields gl = []
  · exact absurd ((ftdumpMain_empty_list eng szArg gl flags m d hne).2 ▸ h)
      (by simp)
  · cases h1 : eng.initOk with
    | false => rw [ftdumpMain] at h; simp [h1] at h
    | true =>
    cases h2 : eng.faceOk with
    | false => rw [ftdumpMain] at h; simp [h1, h2] at h
    | true =>
    cases h3 : eng.setPixelSizeOk (toUInt32Nat (strtolInt szArg.toList)) with
    | false => simp only [String.toList] at h3; rw [ftdumpMain] at h; simp [h1, h2, h3] at h
    | true =>
    rw [ftdumpMain_success eng szArg gl flags m d h1 h2 h3 hne] at h
    exact (Option.some_inj.mp h).symm

/-! ### Concrete engines used for witnesses and counterexamples -/

/-- An engine whose setup calls succeed and whose glyph load/render
always fails (as FreeType does for an out-of-range glyph index). -/
def engNoGlyphs : Engine :=
  ⟨true, true, fun _ => true, fun _ _ _ _ => none⟩

/-! ### C1 -/

/-- C1: with successful setup, if the engine's load/render fails for the
i-th requested glyph ID, the run still exits 0, still emits one object
per parsed glyph ID, and the i-th object is the all-zero object carrying
the requested ID (`{"gid":gid,"width":0,"rows":0,"left":0,"top":0,
"advanceX":0}`); processing of the other IDs is unaffected. -/
theorem perGlyphFailureZeroed (eng : Engine) (szArg gl : String)
    (flags m d : Option String)
    (h1 : eng.initOk = true) (h2 : eng.faceOk = true)
    (h3 : eng.setPixelSizeOk (toUInt32Nat (strtolInt szArg.toList)) = true)
    (i : Nat) (hi : i < (gidFields gl).length)
    (hfail : eng.render (load_flags_of flags) (render_mode_of flags)
        (computeTransform m d) (gidOfTok ((gidFields gl).get ⟨i, hi⟩)) = none) :
    (ftdumpMain eng szArg gl flags m d).exitCode = 0 ∧
    ((ftdumpMain eng szArg gl flags m d).json.getD []).length = (gidFields gl).length ∧
    ((ftdumpMain eng szArg gl flags m d).json.getD [])[i]? =
      some (zeroGlyphJSON (gidOfTok ((gidFields gl).get ⟨i, hi⟩))) := by
  have hne : gidFields gl ≠ [] := by
    intro h
    rw [h] at hi
    exact absurd hi (by simp)
  rw [ftdumpMain_success eng szArg gl flags m d h1 h2 h3 hne]
  refine ⟨rfl, by simp, ?_⟩
  show ((gidFields gl).map
      (fun t => renderGlyph eng flags (computeTransform m d) (gidOfTok t)))[i]? = _
  rw [List.getElem?_map, List.getElem?_eq_getElem hi]
  show some (renderGlyph eng flags (computeTransform m d)
      (gidOfTok ((gidFields gl).get ⟨i, hi⟩))) = _
  rw [renderGlyph, hfail]

/-- Witness for C1 at glyph list `"7"` with an engine that fails every
glyph: one all-zero object for gid 7, exit code 0. -/
theorem perGlyphFailureZeroed_w :
    (ftdumpMain engNoGlyphs "12" "7" none none none).exitCode = 0 ∧
    ((ftdumpMain engNoGlyphs "12" "7" none none none).json.getD []).length =
      (gidFields "7").length ∧
    ((ftdumpMain engNoGlyphs "12" "7" none none none).json.getD [])[0]? =
      some (zeroGlyphJSON (gidOfTok ((gidFields "7").get ⟨0, by decide⟩))) :=
  perGlyphFailureZeroed engNoGlyphs "12" "7" none none none rfl rfl rfl 0 (by decide) rfl

/-! ### C2 -/

/-- C2 is refuted as stated: the glyph list `"1,,2"` has three
comma-separated entries, but the emitted JSON array has only two
objects, because `strtok_r` skips the empty field. -/
theorem jsonArrayPerEntry_cx :
    (splitFields ("1,,2".toList)).length = 3 ∧
    ((ftdumpMain engNoGlyphs "12" "1,,2" none none none).json.getD []).length = 2 ∧
    (2 : Nat) ≠ 3 := by decide

/-- C2 (amended): for a successful setup, the standard output is a
single JSON array with exactly one object per NON-EMPTY comma-separated
entry of the glyph list, the i-th object produced from the i-th
non-empty entry's glyph ID, in input order (duplicates processed
independently). -/
theorem jsonArrayPerNonemptyEntry (eng : Engine) (szArg gl : String)
    (flags m d : Option String)
    (h1 : eng.initOk = true) (h2 : eng.faceOk = true)
    (h3 : eng.setPixelSizeOk (toUInt32Nat (strtolInt szArg.toList)) = true)
    (hne : gidFields gl ≠ []) :
    (ftdumpMain eng szArg gl flags m d).json =
      some ((gidFields gl).map (fun t =>
        renderGlyph eng flags (computeTransform m d) (gidOfTok t))) := by
  rw [ftdumpMain_success eng szArg gl flags m d h1 h2 h3 hne]

/-- Witness for the amended C2 at glyph list `"3,4"`. -/
theorem jsonArrayPerNonemptyEntry_w :
    (ftdumpMain engNoGlyphs "12" "3,4" none none none).json =
      some ((gidFields "3,4").map (fun t =>
        renderGlyph engNoGlyphs none (computeTransform none none) (gidOfTok t))) :=
  jsonArrayPerNonemptyEntry engNoGlyphs "12" "3,4" none none none rfl rfl rfl (by decide)

/-! ### C10 -/

/-- C10: empty fields in the glyph-ID list (consecutive, leading or
trailing commas) are skipped entirely rather than parsed as glyph 0:
the number of emitted glyph objects equals the number of NON-EMPTY
comma-separated fields, and a list with no non-empty field (e.g. only
commas, or the empty string) is treated as an empty list: exit code 1,
no JSON. -/
theorem emptyFieldsSkipped (eng : Engine) (szArg gl : String)
    (flags m d : Option String)
    (h1 : eng.initOk = true) (h2 : eng.faceOk = true)
    (h3 : eng.setPixelSizeOk (toUInt32Nat (strtolInt szArg.toList)) = true) :
    ((gidFields gl).length = 0 →
       (ftdumpMain eng szArg gl flags m d).exitCode = 1 ∧
       (ftdumpMain eng szArg gl flags m d).json = none) ∧
    (0 < (gidFields gl).length →
       ((ftdumpMain eng szArg gl flags m d).json.getD []).length =
         (gidFields gl).length) := by
  constructor
  · intro h0
    exact ftdumpMain_empty_list eng szArg gl flags m d (List.length_eq_zero.mp h0)
  · intro hpos
    have hne : gidFields gl ≠ [] := by
      intro h
      rw [h] at hpos
      exact absurd hpos (by simp)
    rw [ftdumpMain_success eng szArg gl flags m d h1 h2 h3 hne]
    simp

/-- Witness for C10: `",,,"` (only commas) exits 1 with no JSON;
`"7,,8"` (one empty field among two non-empty ones) emits exactly two
objects. -/
theorem emptyFieldsSkipped_w :
    ((ftdumpMain engNoGlyphs "12" ",,," none none none).exitCode = 1 ∧
     (ftdumpMain engNoGlyphs "12" ",,," none none none).json = none) ∧
    ((ftdumpMain engNoGlyphs "12" "7,,8" none none none).json.getD []).length =
      (gidFields "7,,8").length :=
  ⟨(emptyFieldsSkipped engNoGlyphs "12" ",,," none none none rfl rfl rfl).1 (by decide),
   (emptyFieldsSkipped engNoGlyphs "12" "7,,8" none none none rfl rfl rfl).2 (by decide)⟩

/-! ### C5 -/

/-- C5 is refuted as stated: a glyph list consisting entirely of
non-numeric tokens (here `"abc"`) does NOT exit 1 — `strtol` coerces
the token to 0, so the run emits one object for glyph ID 0 and exits
with code 0. -/
theorem allNonnumericExitsZero_cx :
    (ftdumpMain engNoGlyphs "12" "abc" none none none).exitCode = 0 ∧
    (ftdumpMain engNoGlyphs "12" "abc" none none none).json =
      some [zeroGlyphJSON 0] := by decide

/-- C5 (amended): an EMPTY glyph list (no non-empty comma-separated
field) exits with code 1 and prints no JSON; a glyph list entirely of
non-numeric tokens is instead parsed permissively — every token coerces
to glyph ID 0 — and the run proceeds normally: exit code 0 and one
object per token, all requesting glyph 0. -/
theorem allNonnumericTokensGidZero (eng : Engine) (szArg gl : String)
    (flags m d : Option String)
    (h1 : eng.initOk = true) (h2 : eng.faceOk = true)
    (h3 : eng.setPixelSizeOk (toUInt32Nat (strtolInt szArg.toList)) = true) :
    ((gidFields gl).length = 0 →
       (ftdumpMain eng szArg gl flags m d).exitCode = 1 ∧
       (ftdumpMain eng szArg gl flags m d).json = none) ∧
    (gidFields gl ≠ [] → (∀ t ∈ gidFields gl, strtolInt t = 0) →
       (ftdumpMain eng szArg gl flags m d).exitCode = 0 ∧
       (ftdumpMain eng szArg gl flags m d).json =
         some (List.replicate (gidFields gl).length
           (renderGlyph eng flags (computeTransform m d) 0))) := by
  constructor
  · intro h0
    exact ftdumpMain_empty_list eng szArg gl flags m d (List.length_eq_zero.mp h0)
  · intro hne hz
    rw [ftdumpMain_success eng szArg gl flags m d h1 h2 h3 hne]
    refine ⟨rfl, congrArg some ?_⟩
    apply List.eq_replicate_iff.mpr
    constructor
    · simp
    · intro b hb
      simp only [List.mem_map] at hb
      obtain ⟨t, ht, rfl⟩ := hb
      have hz' : gidOfTok t = 0 := by
        rw [gidOfTok, hz t ht]
        decide
      rw [hz']

/-- Witness for the amended C5: `""` exits 1 without JSON; `"abc,def"`
(two non-numeric tokens) emits two glyph-0 objects and exits 0. -/
theorem allNonnumericTokensGidZero_w :
    ((ftdumpMain engNoGlyphs "12" "" none none none).exitCode = 1 ∧
     (ftdumpMain engNoGlyphs "12" "" none none none).json = none) ∧
    ((ftdumpMain engNoGlyphs "12" "abc,def" none none none).exitCode = 0 ∧
     (ftdumpMain engNoGlyphs "12" "abc,def" none none none).json =
       some (List.replicate (gidFields "abc,def").length
         (renderGlyph engNoGlyphs none (computeTransform none none) 0))) :=
  ⟨(allNonnumericTokensGidZero engNoGlyphs "12" "" none none none rfl rfl rfl).1 (by decide),
   (allNonnumericTokensGidZero engNoGlyphs "12" "abc,def" none none none rfl rfl rfl).2
     (by decide) (by decide)⟩

/-! ### C6 -/

/-- A glyph slot with a 2x2 eight-bit bitmap, used as a witness. -/
def pixSlot : GlyphSlot := ⟨2, 2, 2, some [9, 8, 7, 6], 1, 2, 130⟩

/-- An engine whose setup succeeds and which renders every glyph to
`pixSlot`. -/
def engPix : Engine :=
  ⟨true, true, fun _ => true, fun _ _ _ _ => some pixSlot⟩

/-- C6: without the `pixels` flag no emitted object ever carries a
`pixels` key; with the flag, a glyph whose render returns a non-NULL
bitmap buffer gets a `pixels` array of exactly `width * rows` entries,
each an unsigned 8-bit value (given that the engine's buffer holds
`unsigned char` values). -/
theorem pixelsFlagPolicy (eng : Engine) (szArg gl : String) (flags m d : Option String)
    (out : List GlyphJSON) (obj : GlyphJSON)
    (tf : Option (FTMatrix × FTVector)) (gid : Nat) (slot : GlyphSlot) (buf : List Nat) :
    (flag_includes flags "pixels" = false →
       (ftdumpMain eng szArg gl flags m d).json = some out → obj ∈ out →
       obj.pixels = none) ∧
    (flag_includes flags "pixels" = true →
       eng.render (load_flags_of flags) (render_mode_of flags) tf gid = some slot →
       slot.buffer = some buf → (∀ b ∈ buf, b < 256) →
       (renderGlyph eng flags tf gid).pixels =
         some (emitPixels slot.width slot.rows slot.pitch buf) ∧
       (emitPixels slot.width slot.rows slot.pitch buf).length = slot.width * slot.rows ∧
       ∀ v ∈ emitPixels slot.width slot.rows slot.pitch buf, v < 256) := by
  constructor
  · intro hf hjson hmem
    have hout := ftdumpMain_json_some eng szArg gl flags m d out hjson
    subst hout
    simp only [List.mem_map] at hmem
    obtain ⟨t, _, rfl⟩ := hmem
    rw [renderGlyph]
    cases eng.render (load_flags_of flags) (render_mode_of flags)
        (computeTransform m d) (gidOfTok t) with
    | none => rfl
    | some s => simp [hf]
  · intro hf hr hbuf hb
    refine ⟨?_, ?_, emitPixels_mem_lt_256 _ _ _ _ hb⟩
    · rw [renderGlyph, hr]
      simp [hf, hbuf]
    · rw [emitPixels_length]
      exact Nat.mul_comm _ _

/-- Witness for C6: the flag-less run of `engNoGlyphs` yields an
object without `pixels`; `engPix` with the `pixels` flag yields the
flattened 2x2 buffer of length `width * rows`. -/
theorem pixelsFlagPolicy_w :
    (zeroGlyphJSON 7).pixels = none ∧
    (renderGlyph engPix (some "pixels") none 1).pixels =
      some (emitPixels pixSlot.width pixSlot.rows pixSlot.pitch [9, 8, 7, 6]) ∧
    (emitPixels pixSlot.width pixSlot.rows pixSlot.pitch [9, 8, 7, 6]).length =
      pixSlot.width * pixSlot.rows :=
  ⟨(pixelsFlagPolicy engNoGlyphs "12" "7" none none none
      [zeroGlyphJSON 7] (zeroGlyphJSON 7) none 1 pixSlot []).1 rfl (by decide) (by decide),
   ((pixelsFlagPolicy engPix "12" "1" (some "pixels") none none
      [] (zeroGlyphJSON 0) none 1 pixSlot [9, 8, 7, 6]).2 (by decide) rfl rfl (by decide)).1,
   ((pixelsFlagPolicy engPix "12" "1" (some "pixels") none none
      [] (zeroGlyphJSON 0) none 1 pixSlot [9, 8, 7, 6]).2 (by decide) rfl rfl (by decide)).2.1⟩

/-! ### C7 -/

/-- C7: the emitted pixel sequence is logical-row-major with row 0
first regardless of the buffer's storage direction: the element at flat
position `y * width + x` is the buffer byte at offset `y * pitch + x`
for a non-negative pitch, and at offset `(rows - 1 - y) * |pitch| + x`
for a negative pitch (reading starts from the last physical row and
steps backward). -/
theorem pixelRowOrder (w rows : Nat) (p : Int) (buf : List Nat) (y x : Nat)
    (hy : y < rows) (hx : x < w) :
    (emitPixels w rows p buf)[y * w + x]? =
      some (byteAt buf
        (if p < 0 then ((rows : Int) - 1 - (y : Int)) * (p.natAbs : Int) + (x : Int)
         else (y : Int) * p + (x : Int))) := by
  simp only [emitPixels]
  rw [flatten_getElem_uniform w x hx _ ?hw y]
  case hw =>
    intro a ha
    simp only [List.mem_map] at ha
    obtain ⟨y2, _, rfl⟩ := ha
    simp
  rw [List.getElem?_map, List.getElem?_range hy]
  simp only [Option.map_some', Option.some_bind]
  rw [List.getElem?_map, List.getElem?_range hx]
  simp only [Option.map_some']
  congr 1
  by_cases hp : p < 0
  · simp only [if_pos hp]
    have hpv : (p.natAbs : Int) = -p := by omega
    rw [hpv]
    ring_nf
  · simp only [if_neg hp]
    ring_nf

/-- Witness for C7 on a bottom-up buffer (pitch -4, 2 rows of width 3):
the flat element at logical position (0, 1) comes from the LAST
physical row, byte offset `(2 - 1 - 0) * 4 + 1 = 5`. -/
theorem pixelRowOrder_w :
    (0 : Nat) < 2 ∧ (1 : Nat) < 3 ∧
    (emitPixels 3 2 (-4) [10, 11, 12, 0, 20, 21, 22, 0])[0 * 3 + 1]? =
      some (byteAt [10, 11, 12, 0, 20, 21, 22, 0]
        (if (-4 : Int) < 0 then ((2 : Int) - 1 - (0 : Int)) * (((-4 : Int).natAbs : Nat) : Int) + (1 : Int)
         else (0 : Int) * (-4) + (1 : Int))) :=
  ⟨by decide, by decide,
   pixelRowOrder 3 2 (-4) [10, 11, 12, 0, 20, 21, 22, 0] 0 1 (by decide) (by decide)⟩

/-! ### C3 -/

/-- What FreeType's documented monochrome rendering
(`FT_RENDER_MODE_MONO`, producing an `FT_PIXEL_MODE_MONO` bitmap)
returns for a width-8, 3-row glyph: ONE byte per row (pitch 1), each
byte packing 8 pixels MSB-first. Row coverage patterns 10100101,
00111100 and 00000000 pack to the bytes 165, 60 and 0. -/
def monoSlot : GlyphSlot := ⟨8, 3, 1, some [165, 60, 0], 0, 8, 512⟩

/-- An engine whose setup succeeds and which renders every glyph to the
packed monochrome bitmap `monoSlot`. -/
def engMono : Engine :=
  ⟨true, true, fun _ => true, fun _ _ _ _ => some monoSlot⟩

/-- C3 fails on the code (code bug): the `mono` flag does switch the
render mode to monochrome, but the pixel loop indexes the bit-packed
monochrome bitmap as if it were one byte per pixel
(`bitmap->buffer[row + x]` for `x` up to `width - 1` with
`pitch = 1` byte per row), so the emitted "pixel values" are raw packed
bytes — here the three distinct values 165, 60 and 0 — not two distinct
levels (and for `x ≥ pitch * 8 / 8 = 1` the read even leaves the row). -/
theorem monoEmitsPackedBytes :
    render_mode_of (some "mono,pixels") = FTRenderMode.mono ∧
    (ftdumpMain engMono "16" "5" (some "mono,pixels") none none).json =
      some [{ gid := 5, width := 8, rows := 3, left := 0, top := 8, advanceX := 8,
              pixels := some (emitPixels 8 3 1 [165, 60, 0]) }] ∧
    ((emitPixels 8 3 1 [165, 60, 0]).dedup.length = 3) := by decide

/-! ### C4 -/

/-- C4 is refuted as stated: with matrix `"1,0,0,1,1,1"` and delta
`"1,1"` the installed translation is `(65, 65)` — the matrix
translation `tx = 1` is scaled to 1/64-pixel units (`1 * 64 = 64`) but
the delta value `1` is added RAW (`+ 1`, not `+ 1 * 64`) — whereas the
claim predicts `(1*64 + 1*64, 1*64 + 1*64) = (128, 128)`. -/
theorem deltaAddedRaw_cx :
    computeTransform (some "1,0,0,1,1,1") (some "1,1") =
      some (⟨65536, 0, 0, 65536⟩, ⟨65, 65⟩) ∧
    (1 : Int) * 64 + 1 * 64 = 128 ∧ (65 : Int) ≠ 128 := by
  refine ⟨?_, by decide, by decide⟩
  rw [computeTransform]
  show applyTransformArgs
      (if ("1,0,0,1,1,1" : String) = "" then [] else parse_csv_doubles "1,0,0,1,1,1" 6)
      (if ("1,1" : String) = "" then [] else parse_csv_doubles "1,1" 2) = _
  rw [show (if ("1,0,0,1,1,1" : String) = "" then ([] : List ℚ)
        else parse_csv_doubles "1,0,0,1,1,1" 6) = [1, 0, 0, 1, 1, 1] from by decide,
      show (if ("1,1" : String) = "" then ([] : List ℚ)
        else parse_csv_doubles "1,1" 2) = [1, 1] from by decide]
  norm_num [applyTransformArgs, List.getD, truncQ]

/-- C4 (amended): the matrix translation (values 5-6 of a 6-value
matrix CSV) is converted from pixels to 1/64-pixel units (scaled by 64
and truncated), but the delta CSV values are added to the translation
RAW — truncated toward zero, without the 64 scaling — so the installed
translation is `(trunc(tx*64) + trunc(dx), trunc(ty*64) + trunc(dy))`;
if only a delta is given, the identity linear part is installed and the
translation is `(trunc(dx), trunc(dy))`. -/
theorem translationUnits (mvals dvals : List ℚ)
    (hm : mvals.length = 6) (hd : dvals.length = 2) :
    ((applyTransformArgs mvals dvals).map (fun t => t.2) =
      some ⟨truncQ (mvals.getD 4 0 * 64) + truncQ (dvals.getD 0 0),
            truncQ (mvals.getD 5 0 * 64) + truncQ (dvals.getD 1 0)⟩) ∧
    applyTransformArgs [] dvals =
      some (⟨65536, 0, 0, 65536⟩,
            ⟨truncQ (dvals.getD 0 0), truncQ (dvals.getD 1 0)⟩) := by
  constructor
  · simp [applyTransformArgs, hm, hd]
  · simp [applyTransformArgs, hd]

/-- Witness for the amended C4: matrix values `(…,2,3)` and delta
`(5,7)` install the translation `(2*64 + 5, 3*64 + 7) = (133, 199)`. -/
theorem translationUnits_w :
    (applyTransformArgs [1, 0, 0, 1, 2, 3] [5, 7]).map (fun t => t.2) =
      some ⟨133, 199⟩ :=
  ((translationUnits [1, 0, 0, 1, 2, 3] [5, 7] (by decide) (by decide)).1).trans
    (by norm_num [List.getD, truncQ])

/-! ### C8 -/

/-- C8 is refuted as stated: a matrix CSV with exactly 5 parsed values
(`1,0,0,1,7`) does NOT seed the x-translation from its fifth value —
the code requires `count >= 6` for both translation components — so the
installed x-translation is 0, not `trunc(7 * 64) = 448`. -/
theorem matrixNeedsSix_cx :
    (applyTransformArgs [1, 0, 0, 1, 7] []).map (fun t => t.2.x) = some 0 ∧
    truncQ ((7 : ℚ) * 64) = 448 ∧ (0 : Int) ≠ 448 := by
  refine ⟨?_, ?_, by decide⟩
  · simp [applyTransformArgs, truncQ]
  · norm_num
    simp [truncQ]

/-- C8 (amended): a matrix value list with at least 4 values installs
its first four values, scaled by 65536 and truncated, as the 2x2 linear
part (in slots xx, yx, xy, yy); values 5 and 6 seed the translation
only when BOTH are present (at least 6 values) — with exactly 4 or 5
values the seeded translation is `(0, 0)`. (Stated with no usable delta
list, which would be added on top.) -/
theorem matrixNeedsSix (mvals dvals : List ℚ)
    (h4 : 4 ≤ mvals.length) (hd : dvals.length < 2) :
    applyTransformArgs mvals dvals =
      some (⟨truncQ (mvals.getD 0 0 * 65536), truncQ (mvals.getD 1 0 * 65536),
             truncQ (mvals.getD 2 0 * 65536), truncQ (mvals.getD 3 0 * 65536)⟩,
            ⟨if 6 ≤ mvals.length then truncQ (mvals.getD 4 0 * 64) else 0,
             if 6 ≤ mvals.length then truncQ (mvals.getD 5 0 * 64) else 0⟩) := by
  rw [applyTransformArgs]
  rw [if_neg (by omega : ¬ 2 ≤ dvals.length), if_pos h4]
  by_cases h6 : 6 ≤ mvals.length
  · simp [h6]
  · simp [h6, truncQ]

/-- Witness for the amended C8 at the 5-value list `1,0,0,1,7`: the
identity linear part is installed and the translation stays `(0, 0)`. -/
theorem matrixNeedsSix_w :
    applyTransformArgs [1, 0, 0, 1, 7] [] =
      some (⟨65536, 0, 0, 65536⟩, ⟨0, 0⟩) :=
  (matrixNeedsSix [1, 0, 0, 1, 7] [] (by decide) (by decide)).trans
    (by norm_num [List.getD, truncQ])

/-! ### C9 -/

/-- C9 is refuted as stated: the pixel-size argument `"-1"` parses to
the integer -1, but the engine's set-pixel-size operation does NOT
receive the parsed integer — the cast `(FT_UInt)pixel_size`
reinterprets it as the unsigned value 4294967295. -/
theorem pixelSizeCast_cx :
    strtolInt ("-1".toList) = -1 ∧
    (ftdumpMain engNoGlyphs "-1" "5" none none none).sizeReceived =
      some 4294967295 ∧
    ((4294967295 : Int) ≠ -1) := by decide

/-- C9 (amended): a negative or zero pixel-size argument is not
rejected — the permissively parsed integer is passed to the engine's
set-pixel-size operation with no validation, through the `(FT_UInt)`
cast: the engine receives the value reduced modulo 2^32, which equals
the parsed integer exactly when that integer lies in `[0, 2^32)` (so
zero passes through unmodified, while a negative value is reinterpreted
as its two's-complement unsigned counterpart). -/
theorem pixelSizePassthrough (eng : Engine) (szArg gl : String) (flags m d : Option String)
    (h1 : eng.initOk = true) (h2 : eng.faceOk = true) :
    (ftdumpMain eng szArg gl flags m d).sizeReceived =
      some (toUInt32Nat (strtolInt szArg.toList)) ∧
    (0 ≤ strtolInt szArg.toList → strtolInt szArg.toList < 2 ^ 32 →
      ((toUInt32Nat (strtolInt szArg.toList) : Int) = strtolInt szArg.toList)) := by
  constructor
  · rw [ftdumpMain]
    simp only [h1, h2, Bool.not_true, Bool.false_eq_true, if_false]
    split
    · rfl
    · split
      · rfl
      · split
        · rfl
        · rfl
  · intro ha hb
    simp only [toUInt32Nat]
    omega

/-- Witness for the amended C9 at pixel size `"0"`: the engine receives
exactly the parsed value 0 (zero is accepted, not rejected). -/
theorem pixelSizePassthrough_w :
    (ftdumpMain engNoGlyphs "0" "5" none none none).sizeReceived =
      some (toUInt32Nat (strtolInt "0".toList)) ∧
    ((toUInt32Nat (strtolInt "0".toList) : Int) = strtolInt "0".toList) :=
  ⟨(pixelSizePassthrough engNoGlyphs "0" "5" none none none rfl rfl).1,
   (pixelSizePassthrough engNoGlyphs "0" "5" none none none rfl rfl).2
     (by decide) (by decide)⟩
